import Mathlib

/-!
Verification of `fabric-helper` (src/index.ts), a sequential installer
pipeline: environment resolution, cleanup/backup, local merge, and a
remote fetch loop against a package registry.  Filenames and path
fragments are modelled as `List Char`; directories as lists of
filenames; fallible filesystem and network operations as `Except` /
oracle-valued functions.
-/

namespace FabricHelper

/-- Filenames / strings from the program are modelled as character lists. -/
abbrev FN := List Char

/-- JavaScript `String.prototype.toLowerCase` restricted to ASCII, which is
all the program ever feeds it (slugs and registry filenames). -/
def jsToLower (c : Char) : Char :=
  if 'A' ≤ c ∧ c ≤ 'Z' then Char.ofNat (c.toNat + 32) else c

/-- `filename.toLowerCase()` from `modMatchesFilename` (src/index.ts:89). -/
def lowerStr (s : FN) : FN := s.map jsToLower

/-- `slugLower.replace` of every hyphen by an underscore (src/index.ts:91). -/
def hyphenToUnderscore (s : FN) : FN :=
  s.map (fun c => if c = '-' then '_' else c)

/-- JavaScript `hay.includes(needle)` on strings: substring containment,
scanning left to right. -/
def containsSub (needle hay : FN) : Bool :=
  match hay with
  | [] => needle.isEmpty
  | _ :: t => needle.isPrefixOf hay || containsSub needle t

/-- `modMatchesFilename` (src/index.ts:88-96): the lowercased filename
contains the lowercased slug, or the slug with hyphens replaced by
underscores, as a substring. -/
def modMatchesFilename (filename projectSlug : FN) : Bool :=
  let filenameLower := lowerStr filename
  let slugLower := lowerStr projectSlug
  let slugUnderscore := hyphenToUnderscore slugLower
  containsSub slugLower filenameLower || containsSub slugUnderscore filenameLower

/-- Platform identifiers the program distinguishes (`process.platform`,
src/index.ts:44-57): `darwin`, `win32`, and everything else. -/
inductive Platform where
  | darwin
  | win32
  | other
deriving DecidableEq

/-- `node:path`'s `join` of two segments, modelled as separator insertion. -/
def pathJoin (a b : FN) : FN := a ++ '/' :: b

/-- A fatal configuration error (the thrown `Error` in `getMinecraftDir`). -/
inductive ConfigError where
  | appDataMissing
deriving DecidableEq

/-- `getMinecraftDir` (src/index.ts:43-58): darwin uses
`<home>/Library/Application Support/minecraft`; win32 joins `%APPDATA%` with
`.minecraft`, throwing when `APPDATA` is unset; every other platform uses
`<home>/.minecraft`.  `home` models `homedir()` and `appData` the optional
`process.env.APPDATA`. -/
def getMinecraftDir (platform : Platform) (home : FN) (appData : Option FN) :
    Except ConfigError FN :=
  match platform with
  | .darwin => .ok (pathJoin home ("Library/Application Support/minecraft".toList))
  | .win32 =>
    match appData with
    | none => .error .appDataMissing
    | some ad => .ok (pathJoin ad (".minecraft".toList))
  | .other => .ok (pathJoin home (".minecraft".toList))

/-- `f.endsWith(".jar")`, the package-file extension test used by the
cleanup, merge and existing-mod scans. -/
def endsWithJar (f : FN) : Bool := (".jar".toList).isSuffixOf f

/-- The static mod manifest (src/index.ts:73-80), slug and display name. -/
structure ModEntry where
  slug : FN
  name : FN

/-- `MODS` (src/index.ts:73-80). -/
def MODS : List ModEntry :=
  [⟨"fabric-api".toList, "Fabric API".toList⟩,
   ⟨"lambdynamiclights".toList, "Lamb Dynamic Lights".toList⟩,
   ⟨"modmenu".toList, "Mod Menu".toList⟩,
   ⟨"sodium".toList, "Sodium".toList⟩,
   ⟨"xaeros-minimap".toList, "Xaero's Minimap".toList⟩,
   ⟨"xaeros-world-map".toList, "Xaero's World Map".toList⟩]

/-- `findExistingMod` (src/index.ts:162-172): first file of the directory
listing that ends with `.jar` and matches the slug.  The directory listing is
modelled as a list of names (the directories are created in step 2, so the
`existsSync` guard's missing-directory branch corresponds to the empty
listing). -/
def findExistingMod (slug : FN) (dir : List FN) : Option FN :=
  dir.find? (fun f => endsWithJar f && modMatchesFilename f slug)

/-- `findExistingShader` (src/index.ts:174-184): first file of the
shaderpacks listing matching the slug — no extension restriction. -/
def findExistingShader (slug : FN) (dir : List FN) : Option FN :=
  dir.find? (fun f => modMatchesFilename f slug)

/-- One file entry of a registry release (`ModrinthVersion.files[i]`). -/
structure FileEntry where
  url : FN
  filename : FN

/-- A registry release (`ModrinthVersion`, src/index.ts:20-26). -/
structure RegRelease where
  version_number : FN
  files : List FileEntry

/-- Result of one HTTP fetch: non-success status, or a body. -/
inductive FetchResult (α : Type) where
  | httpError
  | ok (body : α)

/-- The network as the program sees it during the fetch loop: the registry
version query keyed by project slug (the requested game version is a fixed
query parameter of every call, so it is folded into the oracle), and the
file download keyed by URL.  `ok none` models a JSON body of `null`. -/
structure RemoteEnv where
  api : FN → FetchResult (Option (List RegRelease))
  download : FN → FetchResult Unit

/-- `downloadMod` (src/index.ts:98-160): returns `some filename` exactly when
the code returns `true` (having written that file into the target directory),
and `none` on every `return false` path: non-success API status, `null` or
empty version list, absent first release, absent first file entry, or a
non-success download status.  The surrounding try/catch only converts thrown
errors into `false`; the total model has no other effects to throw. -/
def downloadMod (env : RemoteEnv) (slug : FN) : Option FN :=
  match env.api slug with
  | .httpError => none
  | .ok none => none
  | .ok (some versions) =>
    if versions.isEmpty then none
    else
      match versions.head? with
      | none => none
      | some latest =>
        match latest.files.head? with
        | none => none
        | some file =>
          match env.download file.url with
          | .httpError => none
          | .ok _ => some file.filename

/-- The four counters of the run (src/index.ts:337, 393-395). -/
structure Counters where
  localCopy : Nat
  success : Nat
  skip : Nat
  fail : Nat
deriving DecidableEq

/-- The tri-state final summary (src/index.ts:455-471). -/
inductive Outcome where
  | allSuccess
  | partialSuccess
  | totalFailure
deriving DecidableEq

/-- The summary branch (src/index.ts:455-471): `failCount === 0` → all
succeeded; else `successCount > 0 || localCopyCount > 0` → partial; else
total failure. -/
def summaryOutcome (c : Counters) : Outcome :=
  if c.fail = 0 then .allSuccess
  else if 0 < c.success ∨ 0 < c.localCopy then .partialSuccess
  else .totalFailure

/-- Which per-file filesystem operations of the cleanup stage throw.  The
code wraps neither `copyFileSync` nor `rmSync` of the cleanup loops in a
try/catch (src/index.ts:296-324). -/
structure FsFaults where
  copyFails : FN → Bool
  rmFails : FN → Bool

/-- The one (opaque) filesystem exception. -/
inductive FsErr where
  | err
deriving DecidableEq

/-- The fault-free filesystem. -/
def noFaults : FsFaults := ⟨fun _ => false, fun _ => false⟩

/-- One cleanup loop (src/index.ts:302-305 and 315-321): iterate over the
snapshot `toMove` of matching names; for each, copy it into the backup and
remove it from the installed directory (removal by name: directory entries
are unique, so `rmSync` removes every entry of that name). -/
def cleanupLoop (toMove : List FN) (installed backup : List FN) :
    List FN × List FN :=
  match toMove with
  | [] => (installed, backup)
  | f :: rest =>
    cleanupLoop rest (installed.filter (fun g => g != f)) (backup ++ [f])

/-- The cleanup of one directory with its selection predicate
(`.jar`-filter for mods, src/index.ts:299; everything for shaderpacks,
src/index.ts:312), starting from a freshly created empty backup folder. -/
def cleanupDir (p : FN → Bool) (installed : List FN) : List FN × List FN :=
  cleanupLoop (installed.filter p) installed []

/-- The same cleanup loop with its per-file `copyFileSync` / `rmSync` allowed
to throw; the code catches nothing here, so the first failing operation
escapes the loop. -/
def cleanupLoopE (faults : FsFaults) (toMove : List FN)
    (installed backup : List FN) : Except FsErr (List FN × List FN) :=
  match toMove with
  | [] => .ok (installed, backup)
  | f :: rest =>
    if faults.copyFails f then .error .err
    else if faults.rmFails f then .error .err
    else cleanupLoopE faults rest (installed.filter (fun g => g != f)) (backup ++ [f])

/-- The local-merge loop (src/index.ts:346-354 for mods over the
`.jar`-filtered staging listing, src/index.ts:366-377 for shaders over the
whole staging listing): a staging file whose name already exists in the
installed directory (`checkExistingFile`, src/index.ts:83-86) is skipped
without touching any counter; otherwise it is copied there and
`localCopyCount` is incremented. -/
def mergeLoop (staging : List FN) (installed : List FN) (localCopyCount : Nat) :
    List FN × Nat :=
  match staging with
  | [] => (installed, localCopyCount)
  | f :: rest =>
    if f ∈ installed then mergeLoop rest installed localCopyCount
    else mergeLoop rest (installed ++ [f]) (localCopyCount + 1)

/-- The step-5 loop over the mod manifest (src/index.ts:397-414): an entry
found by `findExistingMod` bumps `skip`; otherwise `downloadMod` either
writes its file into the mods directory and bumps `success`, or bumps
`fail` and the loop continues with the next entry. -/
def fetchLoop (env : RemoteEnv) (mods : List ModEntry) (dir : List FN)
    (c : Counters) : List FN × Counters :=
  match mods with
  | [] => (dir, c)
  | m :: rest =>
    match findExistingMod m.slug dir with
    | some _ => fetchLoop env rest dir { c with skip := c.skip + 1 }
    | none =>
      match downloadMod env m.slug with
      | some fn =>
        fetchLoop env rest (dir ++ [fn]) { c with success := c.success + 1 }
      | none => fetchLoop env rest dir { c with fail := c.fail + 1 }

/-- The ad-hoc shader entry after the loop (src/index.ts:419-439): slug
`complementary` for the existing-installation scan, slug
`complementary-reimagined` for the download, against the shaderpacks
directory. -/
def shaderFetch (env : RemoteEnv) (dir : List FN) (c : Counters) :
    List FN × Counters :=
  match findExistingShader ("complementary".toList) dir with
  | some _ => (dir, { c with skip := c.skip + 1 })
  | none =>
    match downloadMod env ("complementary-reimagined".toList) with
    | some fn => (dir ++ [fn], { c with success := c.success + 1 })
    | none => (dir, { c with fail := c.fail + 1 })

/-- The two installed-package directories. -/
structure World where
  modsDir : List FN
  shadersDir : List FN
deriving DecidableEq

/-- Result of the pipeline from the cleanup stage on: either the final
counters and summary, or the fatal exit taken by the top-level
`main().catch` handler (src/index.ts:487-490). -/
inductive RunOutcome where
  | completed (w : World) (c : Counters) (o : Outcome)
  | fatalExit (code : Nat)
deriving DecidableEq

/-- Stages 3-5 of `main` (src/index.ts:278-471): optional cleanup (whose
per-file faults escape to the top-level handler and exit 1), then the local
merge of both staging directories, then the remote fetch loop and the shader
entry, then the summary.  Stage 4/5 filesystem writes are modelled as
succeeding; `faults` covers the cleanup stage the claims are about. -/
def runStages (faults : FsFaults) (env : RemoteEnv) (shouldCleanup : Bool)
    (w : World) (stagingMods stagingShaders : List FN) : RunOutcome :=
  let step3 : Except FsErr World :=
    if shouldCleanup then
      match cleanupLoopE faults (w.modsDir.filter endsWithJar) w.modsDir [] with
      | .error e => .error e
      | .ok (mods1, _) =>
        match cleanupLoopE faults w.shadersDir w.shadersDir [] with
        | .error e => .error e
        | .ok (shaders1, _) => .ok ⟨mods1, shaders1⟩
    else .ok w
  match step3 with
  | .error _ => .fatalExit 1
  | .ok w1 =>
    let merged := mergeLoop (stagingMods.filter endsWithJar) w1.modsDir 0
    let merged2 := mergeLoop stagingShaders w1.shadersDir merged.2
    let fetched := fetchLoop env MODS merged.1 ⟨merged2.2, 0, 0, 0⟩
    let fetched2 := shaderFetch env merged2.1 fetched.2
    let cFinal := fetched2.2
    .completed ⟨fetched.1, fetched2.1⟩ cFinal (summaryOutcome cFinal)

/-- A UTC instant as `Date` exposes it, split into the fields that
`toISOString` prints (fields assumed in printable range). -/
structure JsDate where
  year : Nat
  month : Nat
  day : Nat
  hour : Nat
  minute : Nat
  second : Nat
  ms : Nat
deriving DecidableEq

/-- The character of a decimal digit. -/
def digitChar (d : Nat) : Char := Char.ofNat (48 + d % 10)

/-- Two-digit zero-padded field. -/
def pad2 (n : Nat) : FN := [digitChar (n / 10), digitChar n]

/-- Three-digit zero-padded milliseconds field. -/
def pad3 (n : Nat) : FN := [digitChar (n / 100), digitChar (n / 10), digitChar n]

/-- Four-digit zero-padded year field. -/
def pad4 (n : Nat) : FN :=
  [digitChar (n / 1000), digitChar (n / 100), digitChar (n / 10), digitChar n]

/-- The date part `YYYY-MM-DD` of the ISO string. -/
def datePrefix (d : JsDate) : FN :=
  pad4 d.year ++ '-' :: (pad2 d.month ++ '-' :: pad2 d.day)

/-- Model of `Date.prototype.toISOString` for in-range UTC fields:
`YYYY-MM-DDTHH:MM:SS.mmmZ`. -/
def toISOString (d : JsDate) : FN :=
  datePrefix d ++ 'T' ::
    (pad2 d.hour ++ ':' :: (pad2 d.minute ++ ':' ::
      (pad2 d.second ++ '.' :: (pad3 d.ms ++ ['Z']))))

/-- The character replacement of src/index.ts:284: colons and dots become
dashes. -/
def tsRepl (c : Char) : Char := if c = ':' ∨ c = '.' then '-' else c

/-- The backup timestamp (src/index.ts:282-285):
`new Date().toISOString().replace` of colons/dots by dashes, then
`.split("T")[0]` — the segment before the first `T`. -/
def backupTimestamp (d : JsDate) : FN :=
  ((toISOString d).map tsRepl).takeWhile (fun c => c != 'T')

/-- The backup directory name (src/index.ts:286-290):
`<home>/Desktop/minecraft_mods_backup_<timestamp>`. -/
def backupDirName (home : FN) (d : JsDate) : FN :=
  pathJoin (pathJoin home ("Desktop".toList))
    ("minecraft_mods_backup_".toList ++ backupTimestamp d)

/-- ASCII whitespace as trimmed by `String.prototype.trim` (restricted to
the characters a line prompt can deliver). -/
def isJsSpace (c : Char) : Bool :=
  c == ' ' || c == '\t' || c == '\r' || c == '\n'

/-- JavaScript `s.trim()`. -/
def jsTrim (s : FN) : FN :=
  ((s.dropWhile isJsSpace).reverse.dropWhile isJsSpace).reverse

/-- The version-prompt handling (src/index.ts:224-233): `prompt` yields
`null` (modelled `none`) or a line; a falsy result — `null` or the empty
string — aborts with exit status 1, otherwise the run configuration's
version is the trimmed input. -/
def readMcVersion (input : Option FN) : Except Nat FN :=
  match input with
  | none => .error 1
  | some s => if s.isEmpty then .error 1 else .ok (jsTrim s)

theorem containsSub_iff (needle hay : FN) :
    containsSub needle hay = true ↔ ∃ l r, hay = l ++ needle ++ r := by
  induction hay with
  | nil =>
    simp only [containsSub, List.isEmpty_iff]
    constructor
    · rintro rfl
      exact ⟨[], [], rfl⟩
    · rintro ⟨l, r, h⟩
      rcases List.append_eq_nil.mp h.symm with ⟨h1, h2⟩
      rcases List.append_eq_nil.mp h1 with ⟨_, h3⟩
      exact h3
  | cons a t ih =>
    simp only [containsSub, Bool.or_eq_true, ih]
    constructor
    · rintro (hp | ⟨l, r, rfl⟩)
      · obtain ⟨r, hr⟩ : ∃ r, needle ++ r = a :: t :=
          List.isPrefixOf_iff_prefix.mp hp
        exact ⟨[], r, by simp [hr]⟩
      · exact ⟨a :: l, r, rfl⟩
    · rintro ⟨l, r, hl⟩
      cases l with
      | nil =>
        left
        exact List.isPrefixOf_iff_prefix.mpr ⟨r, by simpa using hl.symm⟩
      | cons b l' =>
        right
        refine ⟨l', r, ?_⟩
        have hl' := hl
        simp only [List.cons_append] at hl'
        injection hl' with hb ht

/-- C3: `modMatchesFilename(filename, slug)` returns true iff the lowercased
filename contains, as a substring, the lowercased slug or the lowercased slug
with every hyphen replaced by an underscore; in particular it is true on
`("sodium-fabric-0.5.8.jar", "sodium")` and false on
`("modmenu-9.0.0.jar", "sodium")`. -/
theorem C3_modMatchesFilename_substring_iff :
    (∀ f s : FN, modMatchesFilename f s = true ↔
      ((∃ l r, lowerStr f = l ++ lowerStr s ++ r) ∨
       (∃ l r, lowerStr f = l ++ hyphenToUnderscore (lowerStr s) ++ r))) ∧
    modMatchesFilename ("sodium-fabric-0.5.8.jar".toList) ("sodium".toList) = true ∧
    modMatchesFilename ("modmenu-9.0.0.jar".toList) ("sodium".toList) = false := by
  refine ⟨fun f s => ?_, by decide, by decide⟩
  simp only [modMatchesFilename, Bool.or_eq_true, containsSub_iff]

/-- C7: the Environment Resolver returns the home-relative
`Library/Application Support` directory on macOS, `%APPDATA%` joined with
`.minecraft` on Windows, and the home-relative `.minecraft` directory on every
other platform; on Windows with `APPDATA` unset it raises a configuration
error instead of returning a directory. -/
theorem C7_getMinecraftDir_cases :
    ∀ (home : FN) (ad : FN) (anyAppData : Option FN),
      getMinecraftDir .darwin home anyAppData =
        .ok (pathJoin home ("Library/Application Support/minecraft".toList)) ∧
      getMinecraftDir .win32 home (some ad) =
        .ok (pathJoin ad (".minecraft".toList)) ∧
      getMinecraftDir .other home anyAppData =
        .ok (pathJoin home (".minecraft".toList)) ∧
      getMinecraftDir .win32 home none = .error .appDataMissing := by
  intro home ad anyAppData
  exact ⟨rfl, rfl, rfl, rfl⟩

theorem cleanupLoop_backup (toMove : List FN) :
    ∀ installed backup, (cleanupLoop toMove installed backup).2 = backup ++ toMove := by
  induction toMove with
  | nil => intro installed backup; simp [cleanupLoop]
  | cons f rest ih =>
    intro installed backup
    simp [cleanupLoop, ih]

theorem cleanupLoop_installed (toMove : List FN) :
    ∀ installed backup,
      (cleanupLoop toMove installed backup).1 =
        installed.filter (fun g => decide (g ∉ toMove)) := by
  induction toMove with
  | nil => intro installed backup; simp [cleanupLoop]
  | cons f rest ih =>
    intro installed backup
    rw [cleanupLoop, ih, List.filter_filter]
    apply List.filter_congr
    intro g _
    by_cases hg : g = f
    · subst hg; simp
    · simp [hg]

theorem cleanupDir_spec (p : FN → Bool) (installed : List FN) :
    (cleanupDir p installed).1 = installed.filter (fun g => !(p g)) ∧
    (cleanupDir p installed).2 = installed.filter p := by
  constructor
  · rw [cleanupDir, cleanupLoop_installed]
    apply List.filter_congr
    intro g hg
    cases hpg : p g with
    | true =>
      have hmem : g ∈ installed.filter p := List.mem_filter.mpr ⟨hg, hpg⟩
      simp [hmem]
    | false =>
      have hmem : g ∉ installed.filter p := by
        intro hin
        have := (List.mem_filter.mp hin).2
        rw [hpg] at this
        exact Bool.false_ne_true this
      simp [hmem]
  · rw [cleanupDir, cleanupLoop_backup]
    simp

/-- C2: the cleanup stage copies every matching file into the backup folder
and then deletes it: afterwards the installed-mods directory holds zero
`.jar` files and the backup holds exactly the pre-cleanup `.jar` set, and the
installed-shaderpacks directory (no extension filter) is empty with the
backup holding exactly its pre-cleanup contents. -/
theorem C2_cleanup_backup_postcondition :
    ∀ (modsInstalled shadersInstalled : List FN),
      (cleanupDir endsWithJar modsInstalled).1.countP endsWithJar = 0 ∧
      (cleanupDir endsWithJar modsInstalled).2 = modsInstalled.filter endsWithJar ∧
      (cleanupDir (fun _ => true) shadersInstalled).1 = [] ∧
      (cleanupDir (fun _ => true) shadersInstalled).2 = shadersInstalled := by
  intro mods shaders
  obtain ⟨h1, h2⟩ := cleanupDir_spec endsWithJar mods
  obtain ⟨h3, h4⟩ := cleanupDir_spec (fun _ => true) shaders
  refine ⟨?_, h2, ?_, ?_⟩
  · rw [h1, List.countP_eq_zero]
    intro a ha
    have hmem := (List.mem_filter.mp ha).2
    simp only [Bool.not_eq_true'] at hmem
    simp [hmem]
  · rw [h3]
    simp
  · rw [h4]
    simp

theorem cleanupLoopE_noFaults (toMove : List FN) :
    ∀ installed backup,
      cleanupLoopE noFaults toMove installed backup =
        .ok (cleanupLoop toMove installed backup) := by
  induction toMove with
  | nil => intro installed backup; rfl
  | cons f rest ih =>
    intro installed backup
    simp only [cleanupLoopE, cleanupLoop, noFaults]
    exact ih _ _

theorem cleanupLoopE_fault (faults : FsFaults) (toMove : List FN) :
    ∀ installed backup,
      (∃ f ∈ toMove, faults.copyFails f = true ∨ faults.rmFails f = true) →
      cleanupLoopE faults toMove installed backup = .error .err := by
  induction toMove with
  | nil =>
    intro installed backup h
    simp at h
  | cons f rest ih =>
    intro installed backup h
    rcases h with ⟨g, hg, hfault⟩
    rw [cleanupLoopE]
    rcases List.mem_cons.mp hg with rfl | hgrest
    · rcases hfault with hc | hr
      · simp [hc]
      · by_cases hcf : faults.copyFails g = true
        · simp [hcf]
        · simp [hcf, hr]
    · by_cases hcf : faults.copyFails f = true
      · simp [hcf]
      · by_cases hrf : faults.rmFails f = true
        · simp [hcf, hrf]
        · simp only [hcf, hrf, if_false, Bool.false_eq_true]
          exact ih _ _ ⟨g, hgrest, hfault⟩

/-- C4 (amended): the cleanup stage's per-file copy/delete failures are NOT
caught within the stage: if any file the cleanup moves fails to copy or
delete, the exception escapes `main` to the top-level handler, which exits
fatally with status 1 — the local-merge and remote-fetch stages never run.
With no filesystem faults the pipeline runs to completion. -/
theorem C4_cleanup_faults_are_fatal :
    (∀ (faults : FsFaults) (env : RemoteEnv) (w : World) (sm ss : List FN),
      (∃ f ∈ w.modsDir.filter endsWithJar,
          faults.copyFails f = true ∨ faults.rmFails f = true) →
      runStages faults env true w sm ss = .fatalExit 1) ∧
    (∀ (env : RemoteEnv) (flag : Bool) (w : World) (sm ss : List FN),
      ∃ w' c o, runStages noFaults env flag w sm ss = .completed w' c o) := by
  constructor
  · intro faults env w sm ss hf
    unfold runStages
    rw [if_pos rfl, cleanupLoopE_fault faults _ _ _ hf]
  · intro env flag w sm ss
    unfold runStages
    cases flag with
    | false => exact ⟨_, _, _, rfl⟩
    | true =>
      rw [if_pos rfl, cleanupLoopE_noFaults, cleanupLoopE_noFaults]
      exact ⟨_, _, _, rfl⟩

/-- A filesystem in which the backup copy of `a.jar` throws. -/
def faultOnA : FsFaults := ⟨fun f => f == ("a.jar".toList), fun _ => false⟩

/-- A network on which every request returns a non-success status. -/
def envUnavailable : RemoteEnv := ⟨fun _ => .httpError, fun _ => .httpError⟩

/-- C4 counterexample: with a single installed mod `a.jar` whose backup copy
throws, the cleanup failure is not swallowed — the run aborts with exit
status 1 instead of continuing to the local-merge and remote-fetch stages. -/
theorem C4_counterexample :
    runStages faultOnA envUnavailable true ⟨[("a.jar".toList)], []⟩ [] [] =
      .fatalExit 1 := by decide

/-- C4 witness: a concrete faulty run aborts fatally and a concrete fault-free
run completes. -/
theorem C4_cleanup_faults_are_fatal_witness :
    runStages faultOnA envUnavailable true ⟨[("a.jar".toList)], []⟩
        [("x.jar".toList)] [] = .fatalExit 1 ∧
    ∃ w' c o,
      runStages noFaults envUnavailable false ⟨[], []⟩ [] [] = .completed w' c o :=
  ⟨C4_cleanup_faults_are_fatal.1 faultOnA envUnavailable ⟨[("a.jar".toList)], []⟩
      [("x.jar".toList)] [] ⟨("a.jar".toList), by decide, Or.inl (by decide)⟩,
   C4_cleanup_faults_are_fatal.2 envUnavailable false ⟨[], []⟩ [] []⟩

theorem fetchLoop_counts (env : RemoteEnv) (mods : List ModEntry) :
    ∀ (dir : List FN) (c : Counters),
      ((fetchLoop env mods dir c).2.success + (fetchLoop env mods dir c).2.skip
          + (fetchLoop env mods dir c).2.fail
        = c.success + c.skip + c.fail + mods.length) ∧
      (fetchLoop env mods dir c).2.localCopy = c.localCopy := by
  induction mods with
  | nil =>
    intro dir c
    simp [fetchLoop]
  | cons m rest ih =>
    intro dir c
    rw [fetchLoop]
    cases hfind : findExistingMod m.slug dir with
    | some f =>
      obtain ⟨e1, e2⟩ := ih dir { c with skip := c.skip + 1 }
      constructor
      · rw [e1]
        simp only [List.length_cons]
        omega
      · rw [e2]
    | none =>
      cases hdl : downloadMod env m.slug with
      | some fn =>
        obtain ⟨e1, e2⟩ := ih (dir ++ [fn]) { c with success := c.success + 1 }
        constructor
        · rw [e1]
          simp only [List.length_cons]
          omega
        · rw [e2]
      | none =>
        obtain ⟨e1, e2⟩ := ih dir { c with fail := c.fail + 1 }
        constructor
        · rw [e1]
          simp only [List.length_cons]
          omega
        · rw [e2]

/-- C5: every unavailable shape of a registry query — non-success HTTP
status, `null` body, empty result array, or a first release with no file
entry — takes the `return false` branch of `downloadMod` (no crash: the
model is total), and the fetch loop tallies exactly one of skip, success or
fail per manifest entry, continuing over the whole list. -/
theorem C5_unavailable_branches :
    (∀ (env : RemoteEnv) (slug : FN),
        env.api slug = .httpError → downloadMod env slug = none) ∧
    (∀ (env : RemoteEnv) (slug : FN),
        env.api slug = .ok none → downloadMod env slug = none) ∧
    (∀ (env : RemoteEnv) (slug : FN),
        env.api slug = .ok (some []) → downloadMod env slug = none) ∧
    (∀ (env : RemoteEnv) (slug : FN) (v : RegRelease) (rest : List RegRelease),
        env.api slug = .ok (some (v :: rest)) → v.files = [] →
        downloadMod env slug = none) ∧
    (∀ (env : RemoteEnv) (mods : List ModEntry) (dir : List FN) (c : Counters),
        (fetchLoop env mods dir c).2.success + (fetchLoop env mods dir c).2.skip
            + (fetchLoop env mods dir c).2.fail
          = c.success + c.skip + c.fail + mods.length) := by
  refine ⟨?_, ?_, ?_, ?_, ?_⟩
  · intro env slug h
    unfold downloadMod
    rw [h]
  · intro env slug h
    unfold downloadMod
    rw [h]
  · intro env slug h
    unfold downloadMod
    rw [h]
    rfl
  · intro env slug v rest h hfiles
    unfold downloadMod
    rw [h]
    simp [hfiles]
  · intro env mods dir c
    exact (fetchLoop_counts env mods dir c).1

/-- A network whose registry body is JSON `null` for every slug. -/
def envNullBody : RemoteEnv := ⟨fun _ => .ok none, fun _ => .httpError⟩

/-- A network whose registry body is the empty array for every slug. -/
def envEmptyList : RemoteEnv := ⟨fun _ => .ok (some []), fun _ => .httpError⟩

/-- A network whose registry returns one release with an empty file list. -/
def envNoFiles : RemoteEnv :=
  ⟨fun _ => .ok (some [⟨("1.0".toList), []⟩]), fun _ => .httpError⟩

/-- C5 witness: each unavailable branch evaluated on a concrete network, and
the loop tally on the full manifest against an all-unavailable network. -/
theorem C5_unavailable_branches_witness :
    downloadMod envUnavailable ("sodium".toList) = none ∧
    downloadMod envNullBody ("sodium".toList) = none ∧
    downloadMod envEmptyList ("sodium".toList) = none ∧
    downloadMod envNoFiles ("sodium".toList) = none ∧
    (fetchLoop envUnavailable MODS [] ⟨0, 0, 0, 0⟩).2.success
        + (fetchLoop envUnavailable MODS [] ⟨0, 0, 0, 0⟩).2.skip
        + (fetchLoop envUnavailable MODS [] ⟨0, 0, 0, 0⟩).2.fail
      = 0 + 0 + 0 + MODS.length :=
  ⟨C5_unavailable_branches.1 envUnavailable _ rfl,
   C5_unavailable_branches.2.1 envNullBody _ rfl,
   C5_unavailable_branches.2.2.1 envEmptyList _ rfl,
   C5_unavailable_branches.2.2.2.1 envNoFiles _ ⟨("1.0".toList), []⟩ [] rfl rfl,
   C5_unavailable_branches.2.2.2.2 envUnavailable MODS [] ⟨0, 0, 0, 0⟩⟩

/-- C1 counterexample: counters (localCopy 0, success 0, skip 1, fail 1) —
the unavailable counter is nonzero and one package was sourced by being
already present — yet the summary is total failure, not partial success. -/
theorem C1_counterexample :
    (Counters.mk 0 0 1 1).fail ≠ 0 ∧ 0 < (Counters.mk 0 0 1 1).skip ∧
    summaryOutcome (Counters.mk 0 0 1 1) = .totalFailure ∧
    summaryOutcome (Counters.mk 0 0 1 1) ≠ .partialSuccess := by decide

/-- C1 (amended): when the unavailable counter is nonzero the summary is
partial success iff at least one package was newly downloaded or copied from
local staging; already-present (skipped) packages do not count, so a run
whose only sourced packages were already installed reports total failure. -/
theorem C1_summary_partial_iff :
    ∀ c : Counters, c.fail ≠ 0 →
      (summaryOutcome c = .partialSuccess ↔ 0 < c.success ∨ 0 < c.localCopy) ∧
      (summaryOutcome c = .totalFailure ↔ c.success = 0 ∧ c.localCopy = 0) := by
  intro c hf
  unfold summaryOutcome
  rw [if_neg hf]
  by_cases h : 0 < c.success ∨ 0 < c.localCopy
  · rw [if_pos h]
    constructor
    · exact ⟨fun _ => h, fun _ => rfl⟩
    · constructor
      · intro heq
        exact Outcome.noConfusion heq
      · intro hz
        omega
  · rw [if_neg h]
    constructor
    · constructor
      · intro heq
        exact Outcome.noConfusion heq
      · intro hor
        exact absurd hor h
    · refine ⟨fun _ => ?_, fun _ => rfl⟩
      omega

/-- C1 witness: the amended summary rule applied to counters
(localCopy 1, success 0, skip 0, fail 1). -/
theorem C1_summary_partial_iff_witness :
    (summaryOutcome ⟨1, 0, 0, 1⟩ = .partialSuccess ↔
      0 < (⟨1, 0, 0, 1⟩ : Counters).success ∨
        0 < (⟨1, 0, 0, 1⟩ : Counters).localCopy) ∧
    (summaryOutcome ⟨1, 0, 0, 1⟩ = .totalFailure ↔
      (⟨1, 0, 0, 1⟩ : Counters).success = 0 ∧
        (⟨1, 0, 0, 1⟩ : Counters).localCopy = 0) :=
  C1_summary_partial_iff ⟨1, 0, 0, 1⟩ (by decide)

theorem mergeLoop_superset (staging : List FN) :
    ∀ (installed : List FN) (n : Nat) (f : FN),
      f ∈ installed → f ∈ (mergeLoop staging installed n).1 := by
  induction staging with
  | nil =>
    intro installed n f hf
    simpa [mergeLoop] using hf
  | cons g rest ih =>
    intro installed n f hf
    rw [mergeLoop]
    by_cases hg : g ∈ installed
    · rw [if_pos hg]
      exact ih _ _ _ hf
    · rw [if_neg hg]
      exact ih _ _ _ (by simp [hf])

theorem mergeLoop_mem (staging : List FN) :
    ∀ (installed : List FN) (n : Nat) (f : FN),
      f ∈ staging → f ∈ (mergeLoop staging installed n).1 := by
  induction staging with
  | nil =>
    intro _ _ _ hf
    simp at hf
  | cons g rest ih =>
    intro installed n f hf
    rw [mergeLoop]
    rcases List.mem_cons.mp hf with rfl | hrest
    · by_cases hg : f ∈ installed
      · rw [if_pos hg]
        exact mergeLoop_superset _ _ _ _ hg
      · rw [if_neg hg]
        exact mergeLoop_superset _ _ _ _ (by simp)
    · by_cases hg : g ∈ installed
      · rw [if_pos hg]
        exact ih _ _ _ hrest
      · rw [if_neg hg]
        exact ih _ _ _ hrest

theorem mergeLoop_all_present (staging : List FN) :
    ∀ (installed : List FN) (n : Nat), (∀ f ∈ staging, f ∈ installed) →
      mergeLoop staging installed n = (installed, n) := by
  induction staging with
  | nil =>
    intro _ _ _
    rfl
  | cons g rest ih =>
    intro installed n h
    rw [mergeLoop, if_pos (h g (by simp))]
    exact ih _ _ (fun f hf => h f (by simp [hf]))

/-- C8 (amended): the local-merge loop is idempotent on the installed
directory: a second run over the same staging listing copies nothing — its
copy counter does not move — and leaves the directory unchanged, each file
being skipped because a file of the same name now exists.  The skip touches
no counter at all; the summary's already-present tally is maintained only by
the remote-fetch stage. -/
theorem C8_localMerge_idempotent :
    ∀ (staging installed : List FN) (n c : Nat),
      mergeLoop staging (mergeLoop staging installed n).1 c =
        ((mergeLoop staging installed n).1, c) := by
  intro staging installed n c
  exact mergeLoop_all_present _ _ _ (fun f hf => mergeLoop_mem _ _ _ _ hf)

/-- C8 counterexample: re-running the merge with the single staging file
`a.jar` already installed reports 0 newly copied, but the full run's
already-present tally is 0, not 1 — the merge-stage skip is logged, never
counted. -/
theorem C8_counterexample :
    mergeLoop [("a.jar".toList)] [("a.jar".toList)] 0 = ([("a.jar".toList)], 0) ∧
    runStages noFaults envUnavailable false ⟨[("a.jar".toList)], []⟩
        [("a.jar".toList)] [] =
      .completed ⟨[("a.jar".toList)], []⟩ ⟨0, 0, 0, 7⟩ .totalFailure := by decide

/-- C9 counterexample: a whitespace-only prompt line is truthy, so it is
accepted into the run configuration — and the stored game version, its trim,
is the empty string. -/
theorem C9_counterexample :
    readMcVersion (some (" ".toList)) = .ok [] := rfl

/-- C9 (amended): the run aborts with exit status 1 exactly when the version
prompt yields null or the empty string; every accepted raw input is
non-empty, and the stored version is its trim — which is empty precisely for
whitespace-only input. -/
theorem C9_version_prompt :
    readMcVersion none = .error 1 ∧
    readMcVersion (some []) = .error 1 ∧
    (∀ s : FN, s ≠ [] → readMcVersion (some s) = .ok (jsTrim s)) := by
  refine ⟨rfl, rfl, fun s hs => ?_⟩
  simp only [readMcVersion]
  rw [if_neg (by simpa [List.isEmpty_iff] using hs)]

/-- C9 witness: the accepted input `1.21.10` is stored trimmed. -/
theorem C9_version_prompt_witness :
    readMcVersion (some ("1.21.10".toList)) = .ok (jsTrim ("1.21.10".toList)) :=
  C9_version_prompt.2.2 ("1.21.10".toList) (by decide)

theorem digitChar_ok (d : Nat) :
    tsRepl (digitChar d) = digitChar d ∧ (digitChar d != 'T') = true := by
  have h : d % 10 < 10 := by omega
  simp only [digitChar]
  generalize hm : d % 10 = m
  rw [hm] at h
  interval_cases m <;> exact ⟨by decide, by decide⟩

theorem map_id_of {f : Char → Char} :
    ∀ l : FN, (∀ c ∈ l, f c = c) → l.map f = l := by
  intro l h
  induction l with
  | nil => rfl
  | cons a t ih =>
    simp only [List.map_cons, h a (by simp)]
    rw [ih (fun c hc => h c (by simp [hc]))]

theorem takeWhile_append_cons {p : Char → Bool} (xs : FN) (t : Char) (ys : FN)
    (hall : ∀ c ∈ xs, p c = true) (ht : p t = false) :
    (xs ++ t :: ys).takeWhile p = xs := by
  induction xs with
  | nil => simp [List.takeWhile_cons, ht]
  | cons a xs ih =>
    have ha : p a = true := hall a (by simp)
    simp [List.takeWhile_cons, ha, ih (fun c hc => hall c (by simp [hc]))]

theorem datePrefix_chars (d : JsDate) :
    ∀ c ∈ datePrefix d, tsRepl c = c ∧ (c != 'T') = true := by
  intro c hc
  simp only [datePrefix, pad4, pad2, List.cons_append, List.nil_append,
    List.mem_cons, List.mem_singleton, List.not_mem_nil, or_false] at hc
  rcases hc with rfl | rfl | rfl | rfl | rfl | rfl | rfl | rfl | rfl | rfl
  · exact digitChar_ok _
  · exact digitChar_ok _
  · exact digitChar_ok _
  · exact digitChar_ok _
  · exact ⟨by decide, by decide⟩
  · exact digitChar_ok _
  · exact digitChar_ok _
  · exact ⟨by decide, by decide⟩
  · exact digitChar_ok _
  · exact digitChar_ok _

theorem backupTimestamp_eq_datePrefix (d : JsDate) :
    backupTimestamp d = datePrefix d := by
  unfold backupTimestamp toISOString
  rw [List.map_append, List.map_cons]
  rw [map_id_of (datePrefix d) (fun c hc => (datePrefix_chars d c hc).1)]
  rw [show tsRepl 'T' = 'T' from by decide]
  exact takeWhile_append_cons _ _ _
    (fun c hc => (datePrefix_chars d c hc).2) (by decide)

/-- C6 (amended): the backup directory name embeds only the calendar-date
part `YYYY-MM-DD` of the UTC ISO timestamp — the whole time of day is
discarded by the `split` at `T` — so any two cleanup runs on the same UTC
day, whatever their hour, minute, second or millisecond, produce the same
backup directory name; only runs on different days can produce distinct
names. -/
theorem C6_backup_name_date_only :
    ∀ (home : FN) (d d' : JsDate),
      backupTimestamp d = datePrefix d ∧
      (d.year = d'.year → d.month = d'.month → d.day = d'.day →
        backupDirName home d = backupDirName home d') := by
  intro home d d'
  refine ⟨backupTimestamp_eq_datePrefix d, fun hy hm hd => ?_⟩
  unfold backupDirName
  rw [backupTimestamp_eq_datePrefix, backupTimestamp_eq_datePrefix]
  unfold datePrefix
  rw [hy, hm, hd]

/-- C6 witness: two instants of 2026-10-11, hours apart, share one backup
directory name. -/
theorem C6_backup_name_date_only_witness :
    backupTimestamp ⟨2026, 10, 11, 7, 5, 3, 123⟩ =
      datePrefix ⟨2026, 10, 11, 7, 5, 3, 123⟩ ∧
    backupDirName [] ⟨2026, 10, 11, 7, 5, 3, 123⟩ =
      backupDirName [] ⟨2026, 10, 11, 23, 59, 59, 999⟩ :=
  ⟨(C6_backup_name_date_only [] ⟨2026, 10, 11, 7, 5, 3, 123⟩
      ⟨2026, 10, 11, 23, 59, 59, 999⟩).1,
   (C6_backup_name_date_only [] ⟨2026, 10, 11, 7, 5, 3, 123⟩
      ⟨2026, 10, 11, 23, 59, 59, 999⟩).2 rfl rfl rfl⟩

/-- C6 counterexample: two runs one second apart on the same UTC day collide
on the backup directory name — second resolution is not embedded. -/
theorem C6_counterexample :
    (JsDate.mk 2026 10 11 0 0 0 0).second ≠ (JsDate.mk 2026 10 11 0 0 1 0).second ∧
    backupDirName [] (JsDate.mk 2026 10 11 0 0 0 0) =
      backupDirName [] (JsDate.mk 2026 10 11 0 0 1 0) := by
  exact ⟨by decide, by decide⟩

/-- C10: the mod existing-installation scan only ever returns a file that
ends in `.jar` and matches the slug — a non-`.jar` file is never treated as
an installed match even when its name contains the slug — while the shader
scan applies no extension restriction: the same slug-containing `.zip` name
rejected by the mod scan is returned by the shader scan. -/
theorem C10_extension_restriction :
    (∀ (dir : List FN) (slug f : FN),
        findExistingMod slug dir = some f →
        endsWithJar f = true ∧ modMatchesFilename f slug = true) ∧
    (∀ (dir : List FN) (slug f : FN),
        f ∈ dir → endsWithJar f = false → findExistingMod slug dir ≠ some f) ∧
    (∀ (dir : List FN) (slug f : FN),
        findExistingShader slug dir = some f → modMatchesFilename f slug = true) ∧
    findExistingMod ("sodium".toList) [("sodium-fabric.zip".toList)] = none ∧
    findExistingShader ("sodium".toList) [("sodium-fabric.zip".toList)] =
      some ("sodium-fabric.zip".toList) := by
  refine ⟨?_, ?_, ?_, by decide, by decide⟩
  · intro dir slug f h
    have hp := List.find?_some h
    rw [Bool.and_eq_true] at hp
    exact hp
  · intro dir slug f _ hjar hfind
    have hp := List.find?_some hfind
    rw [Bool.and_eq_true] at hp
    rw [hjar] at hp
    exact Bool.false_ne_true hp.1
  · intro dir slug f h
    rw [findExistingShader] at h
    exact List.find?_some (a := f) h

/-- C10 witness: the general scan properties evaluated at concrete
directories. -/
theorem C10_extension_restriction_witness :
    (endsWithJar ("sodium-fabric.jar".toList) = true ∧
      modMatchesFilename ("sodium-fabric.jar".toList) ("sodium".toList) = true) ∧
    findExistingMod ("sodium".toList) [("sodium-fabric.zip".toList)] ≠
      some ("sodium-fabric.zip".toList) ∧
    modMatchesFilename ("sodium-fabric.zip".toList) ("sodium".toList) = true :=
  ⟨C10_extension_restriction.1 [("sodium-fabric.jar".toList)]
      ("sodium".toList) ("sodium-fabric.jar".toList) (by decide),
   C10_extension_restriction.2.1 [("sodium-fabric.zip".toList)]
      ("sodium".toList) ("sodium-fabric.zip".toList) (by decide) (by decide),
   C10_extension_restriction.2.2.1 [("sodium-fabric.zip".toList)]
      ("sodium".toList) ("sodium-fabric.zip".toList) (by decide)⟩

end FabricHelper
